import Mathlib

/-!
Verification of the OSRS flipping-tool core (`osrs_flipper.py`) against its
specification.  Python numbers are modelled exactly: machine integers as `ℤ`,
float arithmetic as exact rational (`ℚ`) or real (`ℝ`) arithmetic, and Python's
fallible operations (`ZeroDivisionError`) in an `Except` monad.
-/

/-- Errors a Python arithmetic expression can raise. -/
inductive PyErr where
  | zeroDivision
deriving DecidableEq, Repr

/-- Python's `/` on numbers: raises `ZeroDivisionError` on a zero denominator. -/
def pydivQ (a b : ℚ) : Except PyErr ℚ :=
  if b = 0 then .error .zeroDivision else .ok (a / b)

/-- Python's `int(...)` applied to a float: truncation toward zero. -/
def pyInt (q : ℚ) : ℤ :=
  if q < 0 then ⌈q⌉ else ⌊q⌋

/-- `_calculate_ge_tax` (osrs_flipper.py lines 51-55):
`if sell_price <= 100: return 0` then `return int(sell_price * 0.01)`. -/
def calculate_ge_tax (sell_price : ℤ) : ℤ :=
  if sell_price ≤ 100 then 0 else pyInt ((sell_price : ℚ) * 0.01)

/-- `_calculate_bond_conversion_cost` (lines 57-59): `int(price * 0.10)`. -/
def calculate_bond_conversion_cost (price : ℤ) : ℤ :=
  pyInt ((price : ℚ) * 0.10)

/-- `_calculate_required_capital` (lines 257-266):
`buy_cost = buy_price * buy_limit`, `total_cost = buy_cost + ge_tax +
bond_conversion_cost`, `return int(total_cost * 1.05)`. -/
def calculate_required_capital (buy_price buy_limit ge_tax bond_conversion_cost : ℤ) : ℤ :=
  let buy_cost := buy_price * buy_limit
  let total_cost := buy_cost + ge_tax + bond_conversion_cost
  pyInt ((total_cost : ℚ) * 1.05)

/-- `_calculate_opportunity_score` (osrs_flipper.py lines 61-115), computed in
exact arithmetic.  All intermediate quantities up to the `** 1.5` penalties are
rational; the two penalty branches introduce real powers.  Divisions with a
possibly-zero denominator raise, as in Python. -/
noncomputable def calculate_opportunity_score (margin_percentage : ℚ)
    (high_volume low_volume price buy_limit reset_time : ℤ) : Except PyErr ℝ := do
  let profit_per_trade : ℚ := (price : ℚ) * (margin_percentage / 100)
  if profit_per_trade < 100 then
    return 0
  else
    let periods_per_day ← pydivQ 86400 (reset_time : ℚ)
    let high_volume_per_period ← pydivQ (high_volume : ℚ) periods_per_day
    let low_volume_per_period ← pydivQ (low_volume : ℚ) periods_per_day
    let potential_profit_per_day : ℚ := profit_per_trade * (buy_limit : ℚ) * periods_per_day
    let min_volume : ℚ := min (high_volume : ℚ) (low_volume : ℚ)
    let max_possible_trades_per_day : ℚ := (buy_limit : ℚ) * periods_per_day
    let potential1 : ℝ ←
      if min_volume < max_possible_trades_per_day then do
        let volume_factor ← pydivQ min_volume max_possible_trades_per_day
        pure ((potential_profit_per_day : ℝ) * ((volume_factor : ℝ) ^ (1.5 : ℝ)))
      else
        pure ((potential_profit_per_day : ℚ) : ℝ)
    let potential2 : ℝ ←
      if low_volume_per_period < (buy_limit : ℚ) then do
        let buy_limit_factor ← pydivQ low_volume_per_period (buy_limit : ℚ)
        pure (potential1 * ((buy_limit_factor : ℝ) ^ (1.5 : ℝ)))
      else
        pure potential1
    let profit_multiplier : ℚ :=
      if 1000000 < profit_per_trade then 2.0
      else if 500000 < profit_per_trade then 1.7
      else if 100000 < profit_per_trade then 1.4
      else 1.0
    let buy_limit_multiplier : ℚ := 1.0 + (buy_limit : ℚ) / 5000
    let volume_ratio ← pydivQ (min high_volume_per_period low_volume_per_period) (buy_limit : ℚ)
    let volume_multiplier : ℚ := 1.0 + min volume_ratio 2.0
    return potential2 * (profit_multiplier : ℝ) * (buy_limit_multiplier : ℝ)
      * (volume_multiplier : ℝ)

/-- `_calculate_expected_capital_after_flip` (osrs_flipper.py lines 268-277):
`achievable_items = min(buy_limit, int(low_volume_per_period))`,
`profit = margin * achievable_items`, `return required_capital + profit`. -/
def calculate_expected_capital_after_flip (required_capital margin buy_limit : ℤ)
    (low_volume_per_period : ℚ) : ℤ :=
  let achievable_items := min buy_limit (pyInt low_volume_per_period)
  let profit := margin * achievable_items
  required_capital + profit

/-- One item's 24h record (`avgHighPrice`/`avgLowPrice`/`highPriceVolume`/
`lowPriceVolume`); a field is `none` when the key holds Python `None`. -/
structure DailyRec where
  avgHighPrice : Option ℤ
  avgLowPrice : Option ℤ
  highPriceVolume : Option ℤ
  lowPriceVolume : Option ℤ

/-- The drop reasons counted by `analyze_flipping_opportunities` (the
`skipped_items` counter is the spec's MissingData). -/
inductive DropReason where
  | missingData
  | unrealisticSpread
  | lowVolume
  | lowMargin
  | missingBuyLimit
  | insufficientCapital
  | zeroScore
deriving DecidableEq, Repr

/-- The opportunity record built at osrs_flipper.py lines 391-411 (the fields
the claims are about). -/
structure OppRecord where
  margin : ℤ
  margin_percentage : ℚ
  required_capital : ℤ
  achievable_items : ℤ
  profit_per_window : ℤ
  expected_capital : ℤ
  raw_score : ℝ

/-- Result of the per-item first pass of `analyze_flipping_opportunities`. -/
inductive ItemOutcome where
  | dropped : DropReason → ItemOutcome
  | accepted : OppRecord → ItemOutcome

/-- Python `x is None or x <= 0` for a price field. -/
def invalidPrice : Option ℤ → Bool
  | none => true
  | some v => decide (v ≤ 0)

/-- Python `x is None or x < min_volume` for a volume field. -/
def belowVolume (min_volume : ℤ) : Option ℤ → Bool
  | none => true
  | some v => decide (v < min_volume)

/-- Python truthiness of the optional `available_cash`: `None` and `0` are
falsy. -/
def cashTruthy : Option ℤ → Bool
  | none => false
  | some v => decide (v ≠ 0)

/-- Line 367's condition `available_cash and required_capital > available_cash`. -/
def capitalFilterHit (available_cash : Option ℤ) (required_capital : ℤ) : Bool :=
  cashTruthy available_cash && decide (available_cash.getD 0 < required_capital)

/-- The per-item body of the first pass of `analyze_flipping_opportunities`
(osrs_flipper.py lines 301-411): sequential filters, then margin, capital,
score, and the opportunity record. -/
noncomputable def evaluateItem (min_volume : ℤ) (min_margin : ℚ)
    (available_cash : Option ℤ) (item_id : ℕ) (current_high current_low : Option ℤ)
    (daily : Option DailyRec) (buy_limit : Option ℤ) (reset_time : ℤ) :
    Except PyErr ItemOutcome := do
  match daily with
  | none => return .dropped .missingData
  | some daily_data =>
    if invalidPrice current_high || invalidPrice current_low then
      return .dropped .missingData
    else
      let ch : ℤ := current_high.getD 0
      let cl : ℤ := current_low.getD 0
      let current_spread : ℚ := ((ch : ℚ) - (cl : ℚ)) / (cl : ℚ)
      if current_spread > 0.5 then
        return .dropped .unrealisticSpread
      else if invalidPrice daily_data.avgHighPrice || invalidPrice daily_data.avgLowPrice then
        return .dropped .missingData
      else if belowVolume min_volume daily_data.highPriceVolume
          || belowVolume min_volume daily_data.lowPriceVolume then
        return .dropped .lowVolume
      else
        let ge_tax := calculate_ge_tax ch
        let is_bond := item_id = 13190
        let bond_conversion_cost := if is_bond then calculate_bond_conversion_cost ch else 0
        let margin := ch - cl - ge_tax - bond_conversion_cost
        let margin_percentage : ℚ := ((margin : ℚ) / (cl : ℚ)) * 100
        if margin_percentage < min_margin then
          return .dropped .lowMargin
        else
          match buy_limit with
          | none => return .dropped .missingBuyLimit
          | some bl => do
            let required_capital := calculate_required_capital cl bl ge_tax bond_conversion_cost
            if capitalFilterHit available_cash required_capital then
              return .dropped .insufficientCapital
            else do
              let periods_per_day ← pydivQ 86400 (reset_time : ℚ)
              let _high_volume_per_period ←
                pydivQ ((daily_data.highPriceVolume.getD 0 : ℤ) : ℚ) periods_per_day
              let low_volume_per_period ←
                pydivQ ((daily_data.lowPriceVolume.getD 0 : ℤ) : ℚ) periods_per_day
              let achievable_items := min bl (pyInt low_volume_per_period)
              let achievable_profit := margin * achievable_items
              let expected_capital := calculate_expected_capital_after_flip
                required_capital margin bl low_volume_per_period
              let score ← calculate_opportunity_score margin_percentage
                (daily_data.highPriceVolume.getD 0) (daily_data.lowPriceVolume.getD 0)
                ch bl reset_time
              if score = 0 then
                return .dropped .zeroScore
              else
                return .accepted {
                  margin := margin,
                  margin_percentage := margin_percentage,
                  required_capital := required_capital,
                  achievable_items := achievable_items,
                  profit_per_window := achievable_profit,
                  expected_capital := expected_capital,
                  raw_score := score }

/-- One sample of the item's 7-day timeseries; a field is `none` when the key
is absent or holds Python `None`. -/
structure Sample where
  avgHighPrice : Option ℤ
  avgLowPrice : Option ℤ
  highPriceVolume : Option ℤ
  lowPriceVolume : Option ℤ

/-- Python truthiness of `p.get(key)` for an integer field: absent/`None` and
`0` are falsy. -/
def truthyZ : Option ℤ → Bool
  | none => false
  | some v => decide (v ≠ 0)

/-- The comprehension `[p.get(key, 0) for p in item_data if p.get(key)]`
(osrs_flipper.py lines 179-180 and 212-213). -/
def extractSeries (item_data : List Sample) (f : Sample → Option ℤ) : List ℤ :=
  (item_data.filter fun p => truthyZ (f p)).map fun p => (f p).getD 0

/-- Python `int(n * frac)` for the nonnegative percentile index products. -/
def pyIdx (n : ℕ) (frac : ℚ) : ℕ := ⌊(n : ℚ) * frac⌋₊

/-- The middle slice `prices[int(n*0.05):int(n*0.95)]` of a price array. -/
def midSlice (prices : List ℤ) : List ℤ :=
  (prices.drop (pyIdx prices.length 0.05)).take
    (pyIdx prices.length 0.95 - pyIdx prices.length 0.05)

/-- Line 204: `sum(prices[int(n*0.05):int(n*0.95)]) / (n * 0.9)` — note the
divisor is the float `n * 0.9`, not the slice's element count. -/
def avgMid (prices : List ℤ) : ℚ :=
  (((midSlice prices).sum : ℤ) : ℚ) / ((prices.length : ℚ) * 0.9)

/-- Line 208, the quantity under the square root: the sum of squared
deviations from `avgMid` over the middle slice, divided by `n * 0.9`. -/
def varMid (prices : List ℤ) : ℚ :=
  (((midSlice prices).map fun x => ((x : ℚ) - avgMid prices) ^ 2).sum)
    / ((prices.length : ℚ) * 0.9)

/-- Line 208: `(...) ** 0.5`. -/
noncomputable def stdMid (prices : List ℤ) : ℝ :=
  Real.sqrt ((varMid prices : ℚ) : ℝ)

/-- Modelled from the spec's words (for comparison with `avgMid`): the
arithmetic mean of the middle slice — its sum divided by its element count. -/
def specAvgMid (prices : List ℤ) : ℚ :=
  (((midSlice prices).sum : ℤ) : ℚ) / (((midSlice prices).length : ℕ) : ℚ)

/-- Modelled from the spec's words: the population variance of the middle
slice. -/
def specVarMid (prices : List ℤ) : ℚ :=
  (((midSlice prices).map fun x => ((x : ℚ) - specAvgMid prices) ^ 2).sum)
    / (((midSlice prices).length : ℕ) : ℚ)

/-- Modelled from the spec's words: the population standard deviation of the
middle slice. -/
noncomputable def specStdMid (prices : List ℤ) : ℝ :=
  Real.sqrt ((specVarMid prices : ℚ) : ℝ)

/-- The per-item record built by `get_7d_prices` (lines 218-234). -/
structure HistData where
  avg_high : ℚ
  avg_low : ℚ
  high_std : ℝ
  low_std : ℝ
  high_5th : ℤ
  high_95th : ℤ
  low_5th : ℤ
  low_95th : ℤ
  avg_high_5th : ℚ
  avg_low_5th : ℚ
  avg_high_95th : ℚ
  avg_low_95th : ℚ
  avg_high_volume : ℚ
  avg_low_volume : ℚ
  data_points : ℕ

/-- The per-item computation of `get_7d_prices` (lines 178-234): `none` when
either filtered price array is empty (the item is skipped), otherwise either
the statistics record or the Python error its arithmetic raises, in source
order (line 196's bottom-5% average of the low prices divides first). -/
noncomputable def compute7dStats (item_data : List Sample) :
    Option (Except PyErr HistData) :=
  let high_prices := extractSeries item_data Sample.avgHighPrice
  let low_prices := extractSeries item_data Sample.avgLowPrice
  if high_prices.isEmpty || low_prices.isEmpty then none
  else some (do
    let hs := List.insertionSort (· ≤ ·) high_prices
    let ls := List.insertionSort (· ≤ ·) low_prices
    let nh := hs.length
    let nl := ls.length
    let high_5th := hs.getD (pyIdx nh 0.05) 0
    let high_95th := hs.getD (pyIdx nh 0.95) 0
    let low_5th := ls.getD (pyIdx nl 0.05) 0
    let low_95th := ls.getD (pyIdx nl 0.95) 0
    let avg_low_5th ← pydivQ (((ls.take (pyIdx nl 0.05)).sum : ℤ) : ℚ)
      ((pyIdx nl 0.05 : ℕ) : ℚ)
    let avg_high_5th ← pydivQ (((hs.take (pyIdx nh 0.05)).sum : ℤ) : ℚ)
      ((pyIdx nh 0.05 : ℕ) : ℚ)
    let avg_low_95th ← pydivQ (((ls.drop (pyIdx nl 0.95)).sum : ℤ) : ℚ)
      ((nl - pyIdx nl 0.95 : ℕ) : ℚ)
    let avg_high_95th ← pydivQ (((hs.drop (pyIdx nh 0.95)).sum : ℤ) : ℚ)
      ((nh - pyIdx nh 0.95 : ℕ) : ℚ)
    let avg_high := avgMid hs
    let avg_low := avgMid ls
    let high_std := stdMid hs
    let low_std := stdMid ls
    let high_volumes := extractSeries item_data Sample.highPriceVolume
    let low_volumes := extractSeries item_data Sample.lowPriceVolume
    let avg_high_volume : ℚ :=
      if high_volumes.isEmpty then 0
      else ((high_volumes.sum : ℤ) : ℚ) / ((high_volumes.length : ℕ) : ℚ)
    let avg_low_volume : ℚ :=
      if low_volumes.isEmpty then 0
      else ((low_volumes.sum : ℤ) : ℚ) / ((low_volumes.length : ℕ) : ℚ)
    return {
      avg_high := avg_high,
      avg_low := avg_low,
      high_std := high_std,
      low_std := low_std,
      high_5th := high_5th,
      high_95th := high_95th,
      low_5th := low_5th,
      low_95th := low_95th,
      avg_high_5th := avg_high_5th,
      avg_low_5th := avg_low_5th,
      avg_high_95th := avg_high_95th,
      avg_low_95th := avg_low_95th,
      avg_high_volume := avg_high_volume,
      avg_low_volume := avg_low_volume,
      data_points := item_data.length })

/-- `_is_price_consistent` (osrs_flipper.py lines 242-255). -/
noncomputable def is_price_consistent (current_high current_low : ℤ)
    (historical_data : Option HistData) : Bool :=
  match historical_data with
  | none => false
  | some d =>
    let high_within_range :=
      decide (((|(current_high : ℚ) - d.avg_high| : ℚ) : ℝ) ≤ 2 * d.high_std)
    let low_within_range :=
      decide (((|(current_low : ℚ) - d.avg_low| : ℚ) : ℝ) ≤ 2 * d.low_std)
    let high_within_percentile :=
      decide (d.high_5th ≤ current_high ∧ current_high ≤ d.high_95th)
    let low_within_percentile :=
      decide (d.low_5th ≤ current_low ∧ current_low ≤ d.low_95th)
    high_within_range && low_within_range && high_within_percentile && low_within_percentile

/-- The fields of an opportunity dict used by the ranked top-20/replacement
loop of `analyze_flipping_opportunities`. -/
structure Opp where
  item_id : ℕ
  sell_price : ℤ
  buy_price : ℤ
  raw_score : ℝ

/-- The lookup `historical_data.get(opp['item_id'])` followed by
`_is_price_consistent(opp['sell_price'], opp['buy_price'], historical)`. -/
noncomputable def okOpp (hist : ℕ → Option HistData) (o : Opp) : Bool :=
  is_price_consistent o.sell_price o.buy_price (hist o.item_id)

/-- The inner `for opp in next_batch` loop (lines 512-547): append the
consistent candidates, breaking once the result reaches 20. -/
def batchLoop (ok : Opp → Bool) : List Opp → List Opp → List Opp
  | acc, [] => acc
  | acc, o :: rest =>
    if ok o then
      let acc2 := acc ++ [o]
      if 20 ≤ acc2.length then acc2 else batchLoop ok acc2 rest
    else
      batchLoop ok acc rest

/-- The `while len(filtered_opportunities) < 20 and len(opportunities) > 20 +
filtered_count` loop (lines 503-549), phrased over the unconsumed remainder
of the ranked pool; each round takes the next batch of at most 5. -/
def whileLoop (ok : Opp → Bool) (acc rem : List Opp) : List Opp :=
  if h : acc.length < 20 ∧ 0 < rem.length then
    whileLoop ok (batchLoop ok acc (rem.take 5)) (rem.drop 5)
  else
    acc
termination_by rem.length
decreasing_by
  have hpos : 0 < rem.length := h.2
  simp only [List.length_drop]
  omega

/-- Lines 413-549 after sorting: filter the top 20 by consistency; when any
were rejected, consume a first replacement batch of that size (lines
461-500), then loop in batches of 5 until 20 accepted or the pool is
exhausted. -/
def selectOpportunities (ok : Opp → Bool) (opportunities : List Opp) : List Opp :=
  let top_opportunities := opportunities.take 20
  let filtered_opportunities := top_opportunities.filter ok
  let filtered_count := (top_opportunities.filter fun o => ! ok o).length
  if 0 < filtered_count then
    let replacement_opportunities := (opportunities.drop 20).take filtered_count
    let after_first := filtered_opportunities ++ replacement_opportunities.filter ok
    whileLoop ok after_first ((opportunities.drop 20).drop filtered_count)
  else
    filtered_opportunities

/-- The consistency-gated selection instantiated with the 7-day statistics
lookup, as in the source. -/
noncomputable def selectWithHistory (hist : ℕ → Option HistData)
    (opportunities : List Opp) : List Opp :=
  selectOpportunities (okOpp hist) opportunities

theorem pyInt_of_nonneg {q : ℚ} (h : 0 ≤ q) : pyInt q = ⌊q⌋ := by
  unfold pyInt
  rw [if_neg (not_lt.mpr h)]

theorem exceptBind_ok {α β ε : Type} (a : α) (f : α → Except ε β) :
    (Except.ok a >>= f) = f a := rfl

theorem exceptBind_error {α β ε : Type} (e : ε) (f : α → Except ε β) :
    ((Except.error e : Except ε α) >>= f) = Except.error e := rfl

theorem pydivQ_of_ne_zero {a b : ℚ} (h : b ≠ 0) : pydivQ a b = .ok (a / b) := by
  unfold pydivQ
  rw [if_neg h]

theorem pydivQ_zero (a : ℚ) : pydivQ a 0 = .error .zeroDivision := rfl

theorem iteNeCond {α : Type} {c : Prop} [Decidable c] {x y v : α}
    (hx : c → x ≠ v) (hy : y ≠ v) : (if c then x else y) ≠ v := by
  split
  · exact hx (by assumption)
  · exact hy

theorem exceptBindNe {ε α β : Type} {x : Except ε α} {f : α → Except ε β} {v : β}
    (hf : ∀ a, f a ≠ .ok v) : (x >>= f) ≠ .ok v := by
  cases x with
  | error e =>
    rw [exceptBind_error]
    exact fun hh => Except.noConfusion hh
  | ok a =>
    rw [exceptBind_ok]
    exact hf a

theorem exceptPure_eq_ok {α ε : Type} (a : α) : (pure a : Except ε α) = Except.ok a := rfl

/-- In the regime where neither volume penalty fires and no division can raise,
the opportunity score is the plain rational product of the potential profit per
day and the three multipliers. -/
theorem calculate_opportunity_score_no_penalty (mp : ℚ) (hv lv price bl rt : ℤ)
    (hrt : (rt : ℚ) ≠ 0) (hbl : (bl : ℚ) ≠ 0)
    (h3 : ¬ ((price : ℚ) * (mp / 100) < 100))
    (h1 : ¬ (min (hv : ℚ) (lv : ℚ) < (bl : ℚ) * (86400 / (rt : ℚ))))
    (h2 : ¬ ((lv : ℚ) / (86400 / (rt : ℚ)) < (bl : ℚ))) :
    calculate_opportunity_score mp hv lv price bl rt =
      .ok (((price : ℚ) * (mp / 100) * (bl : ℚ) * (86400 / (rt : ℚ))
        * (if 1000000 < (price : ℚ) * (mp / 100) then 2.0
           else if 500000 < (price : ℚ) * (mp / 100) then 1.7
           else if 100000 < (price : ℚ) * (mp / 100) then 1.4
           else 1.0)
        * (1.0 + (bl : ℚ) / 5000)
        * (1.0 + min (min ((hv : ℚ) / (86400 / (rt : ℚ)))
            ((lv : ℚ) / (86400 / (rt : ℚ))) / (bl : ℚ)) 2.0) : ℚ)) := by
  have hppd : (86400 : ℚ) / (rt : ℚ) ≠ 0 := div_ne_zero (by norm_num) hrt
  unfold calculate_opportunity_score
  rw [if_neg h3]
  simp only [pydivQ_of_ne_zero hrt, pydivQ_of_ne_zero hppd, pydivQ_of_ne_zero hbl,
    exceptPure_eq_ok, exceptBind_ok, if_neg h1, if_neg h2]
  congr 1
  push_cast
  ring

/-- Claim C6: with the volumes not the limiting factor at either buy limit
(no volume penalty applies), the score is non-decreasing in the buy limit. -/
theorem c6_score_monotone_in_buy_limit (mp : ℚ) (hv lv price b1 b2 rt : ℤ)
    (hrt : 0 < rt) (hb1 : 0 < b1) (hb12 : b1 ≤ b2)
    (hvol1 : (b1 : ℚ) * (86400 / (rt : ℚ)) ≤ min (hv : ℚ) (lv : ℚ))
    (hvol2 : (b2 : ℚ) * (86400 / (rt : ℚ)) ≤ min (hv : ℚ) (lv : ℚ))
    (hlow1 : (b1 : ℚ) ≤ (lv : ℚ) / (86400 / (rt : ℚ)))
    (hlow2 : (b2 : ℚ) ≤ (lv : ℚ) / (86400 / (rt : ℚ))) :
    ∃ s1 s2 : ℝ,
      calculate_opportunity_score mp hv lv price b1 rt = .ok s1 ∧
      calculate_opportunity_score mp hv lv price b2 rt = .ok s2 ∧
      s1 ≤ s2 := by
  have hb2 : 0 < b2 := lt_of_lt_of_le hb1 hb12
  have hrtq : (0 : ℚ) < (rt : ℚ) := by exact_mod_cast hrt
  have hb1q : (0 : ℚ) < (b1 : ℚ) := by exact_mod_cast hb1
  have hb2q : (0 : ℚ) < (b2 : ℚ) := by exact_mod_cast hb2
  have hb12q : (b1 : ℚ) ≤ (b2 : ℚ) := by exact_mod_cast hb12
  have hppd : (0 : ℚ) < 86400 / (rt : ℚ) := by positivity
  set ppt : ℚ := (price : ℚ) * (mp / 100) with hppt_def
  by_cases hsmall : ppt < 100
  · refine ⟨0, 0, ?_, ?_, le_refl 0⟩ <;>
      · unfold calculate_opportunity_score
        rw [if_pos hsmall]
        rfl
  · set ppd : ℚ := 86400 / (rt : ℚ) with hppd_def
    set m : ℚ := min ((hv : ℚ) / ppd) ((lv : ℚ) / ppd) with hm_def
    have hm_eq : m = min (hv : ℚ) (lv : ℚ) / ppd := min_div_div_right hppd.le _ _
    have hm2 : (b2 : ℚ) ≤ m := by
      rw [hm_eq, le_div_iff hppd]
      linarith [hvol2]
    have hm1 : (b1 : ℚ) ≤ m := le_trans hb12q hm2
    have key : ∀ b : ℚ, 0 < b →
        b * (1.0 + min (m / b) 2.0) = b + min m (2 * b) := by
      intro b hb
      have h20 : (2.0 : ℚ) = 2 := by norm_num
      have h10 : (1.0 : ℚ) = 1 := by norm_num
      rw [h20, h10]
      rcases le_total (m / b) 2 with hle | hge
      · have hmb : m ≤ 2 * b := by
          rw [div_le_iff₀ hb] at hle
          linarith
        rw [min_eq_left hle, min_eq_left hmb, mul_add, mul_one, mul_comm b (m / b),
          div_mul_cancel₀ m hb.ne']
      · have hmb : 2 * b ≤ m := by
          rw [le_div_iff₀ hb] at hge
          linarith
        rw [min_eq_right hge, min_eq_right hmb]
        ring
    have hvol1' : ¬ (min (hv : ℚ) (lv : ℚ) < (b1 : ℚ) * ppd) := not_lt.mpr hvol1
    have hvol2' : ¬ (min (hv : ℚ) (lv : ℚ) < (b2 : ℚ) * ppd) := not_lt.mpr hvol2
    have hlow1' : ¬ ((lv : ℚ) / ppd < (b1 : ℚ)) := not_lt.mpr hlow1
    have hlow2' : ¬ ((lv : ℚ) / ppd < (b2 : ℚ)) := not_lt.mpr hlow2
    rw [calculate_opportunity_score_no_penalty mp hv lv price b1 rt hrtq.ne' hb1q.ne'
      hsmall hvol1' hlow1', calculate_opportunity_score_no_penalty mp hv lv price b2 rt
      hrtq.ne' hb2q.ne' hsmall hvol2' hlow2']
    refine ⟨_, _, rfl, rfl, ?_⟩
    rw [Rat.cast_le]
    set pm : ℚ := (if 1000000 < ppt then 2.0
      else if 500000 < ppt then 1.7 else if 100000 < ppt then 1.4 else 1.0) with hpm_def
    have hpm : 0 < pm := by
      rw [hpm_def]
      split
      · norm_num
      · split
        · norm_num
        · split <;> norm_num
    have hppt_pos : (0 : ℚ) < ppt := lt_of_lt_of_le (by norm_num) (not_lt.mp hsmall)
    have hA : (0 : ℚ) ≤ ppt * ppd * pm := by positivity
    have hform : ∀ b : ℚ, 0 < b →
        ppt * b * ppd * pm * (1.0 + b / 5000) * (1.0 + min (m / b) 2.0)
          = ppt * ppd * pm * ((b + min m (2 * b)) * (1.0 + b / 5000)) := by
      intro b hb
      rw [show ppt * b * ppd * pm * (1.0 + b / 5000) * (1.0 + min (m / b) 2.0)
          = ppt * ppd * pm * ((b * (1.0 + min (m / b) 2.0)) * (1.0 + b / 5000)) by ring,
        key b hb]
    rw [hform (b1 : ℚ) hb1q, hform (b2 : ℚ) hb2q]
    have hmpos : (0 : ℚ) < m := lt_of_lt_of_le hb1q hm1
    apply mul_le_mul_of_nonneg_left _ hA
    apply mul_le_mul
    · exact add_le_add hb12q (min_le_min le_rfl (by linarith))
    · linarith
    · linarith
    · have hmin2 : (0 : ℚ) < min m (2 * (b2 : ℚ)) := lt_min_iff.mpr ⟨hmpos, by linarith⟩
      linarith

/-- Witness for C6: margin 10%, volumes 5000, price 10000, buy limits 10 ≤ 20,
reset time 14400 — the volumes are not limiting and the score is monotone. -/
theorem c6_score_monotone_in_buy_limit_witness :
    ∃ s1 s2 : ℝ,
      calculate_opportunity_score 10 5000 5000 10000 10 14400 = .ok s1 ∧
      calculate_opportunity_score 10 5000 5000 10000 20 14400 = .ok s2 ∧
      s1 ≤ s2 :=
  c6_score_monotone_in_buy_limit 10 5000 5000 10000 10 20 14400
    (by norm_num) (by norm_num) (by norm_num) (by norm_num) (by norm_num)
    (by norm_num) (by norm_num)

/-- Claim C9: providing `available_cash = 0` disables the capital filter: the
evaluation of every item is identical to a run where no cash was provided, and
no item is dropped for `requiredCapital > availableCash` (the guard tests
truthiness, and `0` is falsy). -/
theorem c9_zero_cash_disables_capital_filter (mv : ℤ) (mm : ℚ) (item_id : ℕ)
    (ch cl : Option ℤ) (daily : Option DailyRec) (bl : Option ℤ) (rt : ℤ) :
    evaluateItem mv mm (some 0) item_id ch cl daily bl rt
      = evaluateItem mv mm none item_id ch cl daily bl rt ∧
    evaluateItem mv mm (some 0) item_id ch cl daily bl rt
      ≠ .ok (.dropped .insufficientCapital) := by
  have e1 : ∀ r : ℤ, capitalFilterHit (some 0) r = false := fun _ => rfl
  have e2 : ∀ r : ℤ, capitalFilterHit none r = false := fun _ => rfl
  constructor
  · simp only [evaluateItem, e1, e2]
  · cases daily with
    | none => simp [evaluateItem, exceptPure_eq_ok]
    | some d =>
      cases bl with
      | none =>
        simp only [evaluateItem]
        exact iteNeCond (fun _ => by simp [exceptPure_eq_ok])
          (iteNeCond (fun _ => by simp [exceptPure_eq_ok])
            (iteNeCond (fun _ => by simp [exceptPure_eq_ok])
              (iteNeCond (fun _ => by simp [exceptPure_eq_ok])
                (iteNeCond (fun _ => by simp [exceptPure_eq_ok])
                  (by simp [exceptPure_eq_ok])))))
      | some b =>
        simp only [evaluateItem]
        refine iteNeCond (fun _ => by simp [exceptPure_eq_ok])
          (iteNeCond (fun _ => by simp [exceptPure_eq_ok])
            (iteNeCond (fun _ => by simp [exceptPure_eq_ok])
              (iteNeCond (fun _ => by simp [exceptPure_eq_ok])
                (iteNeCond (fun _ => by simp [exceptPure_eq_ok])
                  (iteNeCond (fun hc => ?_)
                    (exceptBindNe fun _ => exceptBindNe fun _ => exceptBindNe fun _ =>
                      exceptBindNe fun _ =>
                        iteNeCond (fun _ => by simp [exceptPure_eq_ok])
                          (by simp [exceptPure_eq_ok])))))))
        rw [e1] at hc
        exact absurd hc (by simp)

theorem take_append_take {α : Type} : ∀ (n : ℕ) (l m : List α),
    ((l.take n) ++ m).take n = (l ++ m).take n := by
  intro n
  induction n with
  | zero => simp
  | succ n ih =>
    intro l m
    cases l with
    | nil => simp
    | cons a l' => simp only [List.take_succ_cons, List.cons_append, ih]

theorem length_filter_add_length_filter_not {α : Type} (p : α → Bool) (l : List α) :
    (l.filter p).length + (l.filter fun o => ! p o).length = l.length := by
  induction l with
  | nil => rfl
  | cons a l ih =>
    by_cases h : p a <;> simp [List.filter_cons, h] <;> omega

theorem batchLoop_eq (ok : Opp → Bool) : ∀ (l acc : List Opp), acc.length < 20 →
    batchLoop ok acc l = (acc ++ l.filter ok).take 20 := by
  intro l
  induction l with
  | nil =>
    intro acc hacc
    simp [batchLoop, List.take_of_length_le (le_of_lt hacc)]
  | cons o rest ih =>
    intro acc hacc
    rw [batchLoop]
    by_cases hok : ok o
    · rw [if_pos hok]
      simp only []
      by_cases hlen : 20 ≤ (acc ++ [o]).length
      · rw [if_pos hlen]
        have h20 : (acc ++ [o]).length = 20 := by
          simp only [List.length_append, List.length_cons, List.length_nil] at hlen ⊢
          omega
        rw [List.filter_cons_of_pos hok]
        conv_rhs => rw [List.append_cons]
        rw [List.take_left' h20]
      · rw [if_neg hlen]
        have hlt : (acc ++ [o]).length < 20 := by omega
        rw [ih _ hlt, List.filter_cons_of_pos hok]
        conv_rhs => rw [List.append_cons]
    · rw [if_neg hok, ih _ hacc, List.filter_cons_of_neg hok]

theorem whileLoop_eq (ok : Opp → Bool) : ∀ (n : ℕ) (rem acc : List Opp),
    rem.length ≤ n → acc.length ≤ 20 →
    whileLoop ok acc rem = (acc ++ rem.filter ok).take 20 := by
  intro n
  induction n with
  | zero =>
    intro rem acc hrem hacc
    have hnil : rem = [] := List.length_eq_zero.mp (Nat.le_zero.mp hrem)
    subst hnil
    rw [whileLoop]
    simp [List.take_of_length_le hacc]
  | succ n ih =>
    intro rem acc hrem hacc
    rw [whileLoop]
    by_cases hcond : acc.length < 20 ∧ 0 < rem.length
    · rw [dif_pos hcond]
      have hb : batchLoop ok acc (rem.take 5) = (acc ++ (rem.take 5).filter ok).take 20 :=
        batchLoop_eq ok _ _ hcond.1
      have hblen : (batchLoop ok acc (rem.take 5)).length ≤ 20 := by
        rw [hb]
        simp [List.length_take]
      have hremlen : (rem.drop 5).length ≤ n := by
        simp only [List.length_drop]
        omega
      rw [ih _ _ hremlen hblen, hb, take_append_take, List.append_assoc,
        ← List.filter_append, List.take_append_drop]
    · rw [dif_neg hcond]
      push_neg at hcond
      rcases Nat.lt_or_ge acc.length 20 with hlt | hge
      · have hrem0 : rem = [] := by
          have := hcond hlt
          have : rem.length = 0 := by omega
          exact List.length_eq_zero.mp this
        subst hrem0
        simp [List.take_of_length_le (le_of_lt hlt)]
      · have h20 : acc.length = 20 := le_antisymm hacc hge
        exact (List.take_left' h20).symm

theorem selectOpportunities_eq (ok : Opp → Bool) (opportunities : List Opp) :
    selectOpportunities ok opportunities = (opportunities.filter ok).take 20 := by
  unfold selectOpportunities
  by_cases hfc : 0 < ((opportunities.take 20).filter fun o => ! ok o).length
  · rw [if_pos hfc]
    have hsplit : ((opportunities.take 20).filter ok).length
        + ((opportunities.take 20).filter fun o => ! ok o).length
        = (opportunities.take 20).length :=
      length_filter_add_length_filter_not ok (opportunities.take 20)
    have hlen1 : (((opportunities.take 20).filter ok)
        ++ (((opportunities.drop 20).take
            ((opportunities.take 20).filter fun o => ! ok o).length).filter ok)).length
        ≤ 20 := by
      have h1 : ((((opportunities.drop 20).take
          ((opportunities.take 20).filter fun o => ! ok o).length)).filter ok).length
          ≤ ((opportunities.take 20).filter fun o => ! ok o).length := by
        calc ((((opportunities.drop 20).take
              ((opportunities.take 20).filter fun o => ! ok o).length)).filter ok).length
            ≤ ((opportunities.drop 20).take
              ((opportunities.take 20).filter fun o => ! ok o).length).length :=
              List.length_filter_le _ _
          _ ≤ _ := by simp [List.length_take]
      have h2 : (opportunities.take 20).length ≤ 20 := by simp [List.length_take]
      simp only [List.length_append]
      omega
    rw [whileLoop_eq ok (((opportunities.drop 20).drop
        ((opportunities.take 20).filter fun o => ! ok o).length).length) _ _ le_rfl hlen1]
    rw [List.append_assoc, ← List.filter_append, ← List.filter_append,
      List.take_append_drop, List.take_append_drop]
  · rw [if_neg hfc]
    have hall : ∀ x ∈ opportunities.take 20, ok x := by
      intro x hx
      by_contra hnot
      have hmem : x ∈ (opportunities.take 20).filter fun o => ! ok o := by
        simp [List.mem_filter, hx, hnot]
      have hpos := List.length_pos.mpr (List.ne_nil_of_mem hmem)
      omega
    have hfilter_top : (opportunities.take 20).filter ok = opportunities.take 20 :=
      List.filter_eq_self.mpr hall
    rw [hfilter_top]
    by_cases hlen : 20 ≤ opportunities.length
    · have h20 : (opportunities.take 20).length = 20 := by
        simp only [List.length_take]
        omega
      conv_rhs => rw [← List.take_append_drop 20 opportunities]
      rw [List.filter_append, hfilter_top, List.take_left' h20]
    · have htop_all : opportunities.take 20 = opportunities :=
        List.take_of_length_le (by omega)
      rw [htop_all] at hfilter_top ⊢
      rw [hfilter_top, List.take_of_length_le (by omega)]

theorem pyIdx_005 (n : ℕ) : pyIdx n 0.05 = n / 20 := by
  rw [pyIdx, show ((n : ℚ) * 0.05) = ((n : ℕ) : ℚ) / ((20 : ℕ) : ℚ) by push_cast; ring]
  exact Nat.floor_div_eq_div n 20

theorem pyIdx_095 (n : ℕ) : pyIdx n 0.95 = 19 * n / 20 := by
  rw [pyIdx, show ((n : ℚ) * 0.95) = ((19 * n : ℕ) : ℚ) / ((20 : ℕ) : ℚ) by push_cast; ring]
  exact Nat.floor_div_eq_div (19 * n) 20

theorem midSlice_length_of_dvd {l : List ℤ} (h10 : 10 ∣ l.length)
    (h20 : 20 ≤ l.length) :
    ((midSlice l).length : ℚ) = (l.length : ℚ) * 0.9 := by
  obtain ⟨m, hm⟩ := h10
  have hlen : (midSlice l).length = 9 * m := by
    rw [midSlice, pyIdx_005, pyIdx_095]
    simp only [List.length_take, List.length_drop]
    omega
  rw [hlen, hm]
  push_cast
  rw [show (0.9 : ℚ) = 9 / 10 by norm_num]
  ring

/-- Claim C2 amended: on a sorted array whose length is a multiple of 10 (and
at least 20) the divisor `n*0.9` coincides with the middle-slice length, so
the reported average equals the slice mean and the reported standard
deviation equals the slice's population standard deviation.  (For other
lengths the code's `n*0.9` divisor differs from the slice count and the claim
fails — see the counterexample at n = 21.) -/
theorem c2_midslice_stats (l : List ℤ) (hs : l.Sorted (· ≤ ·))
    (h10 : 10 ∣ l.length) (h20 : 20 ≤ l.length) :
    avgMid l = specAvgMid l ∧ stdMid l = specStdMid l := by
  have hq : ((midSlice l).length : ℚ) = (l.length : ℚ) * 0.9 :=
    midSlice_length_of_dvd h10 h20
  have havg : avgMid l = specAvgMid l := by
    rw [avgMid, specAvgMid, hq]
  have hvar : varMid l = specVarMid l := by
    rw [varMid, specVarMid, hq, ← havg]
  have hstd : stdMid l = specStdMid l := by
    rw [stdMid, specStdMid, hvar]
  exact ⟨havg, hstd⟩

/-- Witness for the amended C2 on a sorted constant array of length 20. -/
theorem c2_midslice_stats_witness :
    List.Sorted (· ≤ ·) (List.replicate 20 (5 : ℤ)) ∧
    10 ∣ (List.replicate 20 (5 : ℤ)).length ∧
    20 ≤ (List.replicate 20 (5 : ℤ)).length ∧
    (avgMid (List.replicate 20 (5 : ℤ)) = specAvgMid (List.replicate 20 (5 : ℤ)) ∧
     stdMid (List.replicate 20 (5 : ℤ)) = specStdMid (List.replicate 20 (5 : ℤ))) :=
  ⟨by decide, ⟨2, by norm_num⟩, by decide,
    c2_midslice_stats _ (by decide) ⟨2, by norm_num⟩ (by decide)⟩

/-- Claim C2, counterexample: a sorted array of length 21 (whose
`floor(n*0.05) = 1` is at least 1) on which the reported average
`sum / (21*0.9) = 36/18.9` differs from the slice mean `36/18`: the code
divides by `n*0.9`, not by the slice's element count. -/
theorem c2_avg_divisor_counterexample :
    List.Sorted (· ≤ ·) (List.replicate 21 (2 : ℤ)) ∧
    1 ≤ pyIdx (List.replicate 21 (2 : ℤ)).length 0.05 ∧
    avgMid (List.replicate 21 (2 : ℤ)) ≠ specAvgMid (List.replicate 21 (2 : ℤ)) := by
  refine ⟨by decide, ?_, ?_⟩
  · rw [List.length_replicate, pyIdx_005]
  · have hmid : midSlice (List.replicate 21 (2 : ℤ)) = List.replicate 18 2 := by
      rw [midSlice, List.length_replicate, pyIdx_005, pyIdx_095]
      norm_num
    rw [avgMid, specAvgMid, hmid, List.length_replicate, List.length_replicate,
      List.sum_replicate]
    norm_num

/-- Claim C1: on a typical 7-sample series the bottom-5% average at line 196
divides by `int(7*0.05) = 0` and the computation raises an (uncaught)
`ZeroDivisionError` — it does not surface an InsufficientHistory condition. -/
theorem c1_seven_samples_raise_zero_division :
    compute7dStats
        (List.replicate 7 (Sample.mk (some 100) (some 100) (some 1000) (some 1000)))
      = some (.error .zeroDivision) := by
  have hhigh : extractSeries
      (List.replicate 7 (Sample.mk (some 100) (some 100) (some 1000) (some 1000)))
      Sample.avgHighPrice = List.replicate 7 (100 : ℤ) := by decide
  have hlow : extractSeries
      (List.replicate 7 (Sample.mk (some 100) (some 100) (some 1000) (some 1000)))
      Sample.avgLowPrice = List.replicate 7 (100 : ℤ) := by decide
  have hsort : List.insertionSort (· ≤ ·) (List.replicate 7 (100 : ℤ))
      = List.replicate 7 100 := by decide
  have hidx : pyIdx 7 0.05 = 0 := by
    rw [pyIdx_005]
  simp only [compute7dStats, hhigh, hlow, hsort]
  rw [if_neg (by decide)]
  simp only [List.length_replicate, hidx, List.take_zero, List.sum_nil, Int.cast_zero,
    Nat.cast_zero, pydivQ_zero, exceptBind_error]

/-- Claim C4, counterexample: a ranked pool of one survivor with positive
rawScore whose history is absent (hence inconsistent) yields an accepted set
of size 0, not min(20, 1) = 1: consistency rejections shrink the final set
below min(20, number of survivors). -/
theorem c4_size_counterexample :
    (0 : ℝ) < (Opp.mk 1 110 100 1).raw_score ∧
    (selectWithHistory (fun _ => none) [Opp.mk 1 110 100 1]).length
      ≠ min 20 [Opp.mk 1 110 100 1].length := by
  constructor
  · norm_num
  · unfold selectWithHistory
    rw [selectOpportunities_eq]
    have hok : okOpp (fun _ => none) (Opp.mk 1 110 100 1) = false := rfl
    simp [hok]

/-- Claim C4 amended: the accepted set equals the first 20 of the
consistency-accepted candidates of the ranked pool, in rank order; hence its
size is min(20, number of ranked candidates passing the consistency gate)
(consistency rejections can shrink it below min(20, number of survivors)), it
has no duplicate item ids when the pool has none, and it is a subsequence of
the ranked pool — consumed in strictly increasing rank order, each candidate
at most once. -/
theorem c4_selection_invariant (hist : ℕ → Option HistData)
    (opportunities : List Opp) :
    selectWithHistory hist opportunities
        = (opportunities.filter (okOpp hist)).take 20 ∧
    (selectWithHistory hist opportunities).length
        = min 20 (opportunities.filter (okOpp hist)).length ∧
    ((opportunities.map Opp.item_id).Nodup →
      ((selectWithHistory hist opportunities).map Opp.item_id).Nodup) ∧
    (selectWithHistory hist opportunities).Sublist opportunities := by
  have heq : selectWithHistory hist opportunities
      = (opportunities.filter (okOpp hist)).take 20 :=
    selectOpportunities_eq (okOpp hist) opportunities
  have hsub : (selectWithHistory hist opportunities).Sublist opportunities := by
    rw [heq]
    exact (List.take_sublist 20 _).trans (List.filter_sublist _)
  refine ⟨heq, ?_, ?_, hsub⟩
  · rw [heq, List.length_take]
  · intro hnd
    exact (hsub.map Opp.item_id).nodup hnd

/-- Witness for the amended C4 at a one-element pool with absent history. -/
theorem c4_selection_invariant_witness :
    ([Opp.mk 1 110 100 1].map Opp.item_id).Nodup ∧
    ((selectWithHistory (fun _ => none) [Opp.mk 1 110 100 1]).map Opp.item_id).Nodup :=
  ⟨by simp, (c4_selection_invariant (fun _ => none) [Opp.mk 1 110 100 1]).2.2.1 (by simp)⟩

/-- Claim C5: the consistency check rejects when the record is absent, and
otherwise accepts exactly when all four gates hold — the two 2-standard-
deviation bands and the two 5th-95th percentile bands. -/
theorem c5_consistency_iff (ch cl : ℤ) :
    is_price_consistent ch cl none = false ∧
    ∀ d : HistData,
      is_price_consistent ch cl (some d) = true ↔
        (((|(ch : ℚ) - d.avg_high| : ℚ) : ℝ) ≤ 2 * d.high_std ∧
         ((|(cl : ℚ) - d.avg_low| : ℚ) : ℝ) ≤ 2 * d.low_std ∧
         (d.low_5th ≤ cl ∧ cl ≤ d.low_95th) ∧
         (d.high_5th ≤ ch ∧ ch ≤ d.high_95th)) := by
  refine ⟨rfl, ?_⟩
  intro d
  simp only [is_price_consistent, Bool.and_eq_true, decide_eq_true_eq]
  tauto

/-- Claim C7, counterexample: an item with valid snapshot prices 200/100
(spread 100% > 50%) whose 24h record has `avgHighPrice = None` is counted
under UnrealisticSpread, not MissingData: the spread filter runs before the
daily-stats validity filter. -/
theorem c7_filter_order_counterexample :
    evaluateItem 100 (1 / 2) none 1 (some 200) (some 100)
        (some ⟨none, some 50, some 1000, some 1000⟩) (some 100) 14400
      = .ok (.dropped .unrealisticSpread) ∧
    DropReason.unrealisticSpread ≠ DropReason.missingData := by
  constructor
  · have h1 : (invalidPrice (some (200 : ℤ)) || invalidPrice (some (100 : ℤ))) = false := by
      simp [invalidPrice]
    simp only [evaluateItem, Option.getD_some, h1, Bool.false_eq_true, if_false]
    rw [if_pos (by norm_num : (((200 : ℤ) : ℚ) - ((100 : ℤ) : ℚ)) / ((100 : ℤ) : ℚ) > 0.5)]
    rfl
  · simp

/-- Claim C7 amended: snapshot-price validity is checked before the spread
filter, but the daily-stats validity check runs after it; hence every item
with positive snapshot prices and instant spread above 50% is dropped as
UnrealisticSpread regardless of its daily record — including records with a
missing or non-positive `avgHighPrice`/`avgLowPrice`. -/
theorem c7_spread_checked_before_daily_validity (mv : ℤ) (mm : ℚ) (ac : Option ℤ)
    (item_id : ℕ) (d : DailyRec) (bl : Option ℤ) (rt : ℤ) (h l : ℤ)
    (hh : 0 < h) (hl : 0 < l) (hs : ((h : ℚ) - (l : ℚ)) / (l : ℚ) > 0.5) :
    evaluateItem mv mm ac item_id (some h) (some l) (some d) bl rt
      = .ok (.dropped .unrealisticSpread) := by
  have h1 : (invalidPrice (some h) || invalidPrice (some l)) = false := by
    simp [invalidPrice]
    omega
  simp only [evaluateItem, Option.getD_some, h1, Bool.false_eq_true, if_false]
  rw [if_pos hs]
  rfl

/-- Witness for the amended C7: prices 200/100 with a daily record whose
`avgHighPrice` is 0 (non-positive) still yield UnrealisticSpread. -/
theorem c7_spread_checked_before_daily_validity_witness :
    0 < (200 : ℤ) ∧ 0 < (100 : ℤ) ∧
      (((200 : ℤ) : ℚ) - ((100 : ℤ) : ℚ)) / ((100 : ℤ) : ℚ) > 0.5 ∧
      evaluateItem 100 (1 / 2) none 7 (some 200) (some 100)
          (some ⟨some 0, some 50, some 1000, some 1000⟩) (some 100) 14400
        = .ok (.dropped .unrealisticSpread) :=
  ⟨by norm_num, by norm_num, by norm_num,
    c7_spread_checked_before_daily_validity 100 (1 / 2) none 7
      ⟨some 0, some 50, some 1000, some 1000⟩ (some 100) 14400 200 100
      (by norm_num) (by norm_num) (by norm_num)⟩

/-- Claim C10: the score function is partial at `buyLimit = 0` — with positive
volumes and profit per trade at least 100 the `volume_ratio` computation
divides by zero — and the upstream metadata filter only rejects an *absent*
buy limit, so an item whose metadata carries `buy_limit = 0` reaches the score
call and the whole evaluation raises `ZeroDivisionError`. -/
theorem c10_zero_buy_limit_divides_by_zero :
    calculate_opportunity_score 10 1000 1000 10000 0 14400 = .error .zeroDivision ∧
    evaluateItem 100 (1 / 2) none 1 (some 11000) (some 10000)
        (some ⟨some 11000, some 10000, some 1000, some 1000⟩) (some 0) 14400
      = .error .zeroDivision := by
  have htax : calculate_ge_tax 11000 = 110 := by
    unfold calculate_ge_tax
    rw [if_neg (by norm_num)]
    rw [pyInt_of_nonneg (by norm_num)]
    rw [Int.floor_eq_iff]
    norm_num
  constructor
  · norm_num [calculate_opportunity_score, pydivQ, exceptBind_ok, exceptBind_error,
      exceptPure_eq_ok]
  · norm_num [evaluateItem, invalidPrice, belowVolume, capitalFilterHit, cashTruthy,
      htax, calculate_opportunity_score, pydivQ, exceptBind_ok, exceptBind_error,
      exceptPure_eq_ok]

/-- Claim C8: for every positive integer sell price the GE tax is 0 at or below
100 and `⌊sellPrice * 0.01⌋` above 100; in particular `tax 100 = 0` and
`tax 101 = 1`. -/
theorem c8_ge_tax_boundary :
    (∀ s : ℤ, 0 < s →
      (s ≤ 100 → calculate_ge_tax s = 0) ∧
      (100 < s → calculate_ge_tax s = ⌊(s : ℚ) * 0.01⌋)) ∧
    calculate_ge_tax 100 = 0 ∧ calculate_ge_tax 101 = 1 := by
  have key : ∀ s : ℤ, 0 < s → (s ≤ 100 → calculate_ge_tax s = 0) ∧
      (100 < s → calculate_ge_tax s = ⌊(s : ℚ) * 0.01⌋) := by
    intro s hs
    constructor
    · intro hle
      unfold calculate_ge_tax
      rw [if_pos hle]
    · intro hgt
      unfold calculate_ge_tax
      rw [if_neg (not_le.mpr hgt)]
      exact pyInt_of_nonneg (by positivity)
  refine ⟨key, ?_, ?_⟩
  · exact (key 100 (by norm_num)).1 (by norm_num)
  · rw [(key 101 (by norm_num)).2 (by norm_num)]
    have : ((101 : ℤ) : ℚ) * 0.01 = ((101 : ℤ) : ℚ) / ((100 : ℕ) : ℚ) := by norm_num
    rw [this, Rat.floor_intCast_div_natCast]
    norm_num

/-- Witness for C8 at `s = 250`: the tax is `⌊250 * 0.01⌋`. -/
theorem c8_ge_tax_boundary_witness :
    0 < (250 : ℤ) ∧ calculate_ge_tax 250 = ⌊((250 : ℤ) : ℚ) * 0.01⌋ :=
  ⟨by norm_num, (c8_ge_tax_boundary.1 250 (by norm_num)).2 (by norm_num)⟩

/-- Claim C3, counterexample: at `buyPrice = 1`, `buyLimit = 1`, `tax = 0`,
`bond = 0` the code returns `int(1 * 1.05) = 1`, while
`ceil(1.05 * 1) = 2`: the required capital is not rounded up. -/
theorem c3_required_capital_counterexample :
    calculate_required_capital 1 1 0 0 ≠ ⌈((1 * 1 + 0 + 0 : ℤ) : ℚ) * 1.05⌉ := by
  have hlhs : calculate_required_capital 1 1 0 0 = 1 := by
    unfold calculate_required_capital
    rw [pyInt_of_nonneg (by norm_num)]
    rw [Int.floor_eq_iff]
    norm_num
  have hrhs : ⌈((1 * 1 + 0 + 0 : ℤ) : ℚ) * 1.05⌉ = 2 := by
    rw [Int.ceil_eq_iff]
    norm_num
  rw [hlhs, hrhs]
  norm_num

/-- Claim C3 amended: `requiredCapital` equals
`floor(1.05 * (buyPrice*buyLimit + tax + bond))` (rounded down, not up),
whenever the total cost is nonnegative. -/
theorem c3_required_capital_amended :
    ∀ bp bl tax bond : ℤ, 0 ≤ bp * bl + tax + bond →
      calculate_required_capital bp bl tax bond = 21 * (bp * bl + tax + bond) / 20 := by
  intro bp bl tax bond h
  unfold calculate_required_capital
  rw [pyInt_of_nonneg (by positivity)]
  have : ((bp * bl + tax + bond : ℤ) : ℚ) * 1.05
      = ((21 * (bp * bl + tax + bond) : ℤ) : ℚ) / ((20 : ℕ) : ℚ) := by
    push_cast
    ring
  rw [this, Rat.floor_intCast_div_natCast]
  norm_num

/-- Witness for the amended C3 at `buyPrice = 3`, `buyLimit = 7`, `tax = 2`,
`bond = 0`: the capital is `⌊1.05 * 23⌋ = 24`. -/
theorem c3_required_capital_amended_witness :
    0 ≤ (3 * 7 + 2 + 0 : ℤ) ∧
      calculate_required_capital 3 7 2 0 = 21 * (3 * 7 + 2 + 0) / 20 :=
  ⟨by norm_num, c3_required_capital_amended 3 7 2 0 (by norm_num)⟩
